import Mathlib

/-!
Verification of the MPD per-output audio worker (OutputThread.cxx).

The development shallowly embeds the worker: pure helpers (`ao_chunk_data`,
`ao_filter_chunk`) become Lean functions over lists of samples; the stateful
worker (`AudioOutput::Open/Close/Reopen/Disable/Pause/Play/Task`) becomes a
state machine on an explicit record `AOState`, with all plugin and filter
calls driven by an oracle environment and recorded in an event trace.
-/

set_option autoImplicit false

namespace Mpd

/-- Modelled from the spec (AudioFormat.hxx is not part of the sources given):
an audio format has a sample rate, an enumerated sample format and a channel
count; a zero field means the field is unset (mask semantics). -/
structure AudioFormat where
  sample_rate : Nat
  format : Nat
  channels : Nat
deriving DecidableEq, Repr

namespace AudioFormat

/-- Modelled from the spec: the all-unset format, returned on filter-open failure. -/
def Undefined : AudioFormat := ⟨0, 0, 0⟩

/-- Modelled from the spec: a format is defined when its sample rate is set. -/
def IsDefined (f : AudioFormat) : Bool := f.sample_rate != 0

/-- Modelled from the spec: fully defined means every field is set. -/
def IsFullyDefined (f : AudioFormat) : Bool :=
  f.sample_rate != 0 && f.format != 0 && f.channels != 0

/-- Modelled from the spec: `valid` is the boundary predicate asserted on
`in_audio_format`; every field must be set (and in range, which the Nat
embedding leaves abstract). -/
def IsValid (f : AudioFormat) : Bool := f.IsFullyDefined

/-- Modelled from the spec: fields set on the mask override the base format. -/
def ApplyMask (f mask : AudioFormat) : AudioFormat :=
  { sample_rate := if mask.sample_rate != 0 then mask.sample_rate else f.sample_rate
    format := if mask.format != 0 then mask.format else f.format
    channels := if mask.channels != 0 then mask.channels else f.channels }

end AudioFormat

/-- PCM payload of a chunk: a list of sample values.  The C code works with
byte counts; here `length` of the list plays the role of the byte length. -/
abbrev PcmData := List ℚ

/-- A PCM filter stage (`Filter::FilterPCM`): may fail (`none`, the C code
returns a null pointer) or produce a buffer of possibly different length. -/
abbrev PcmFn := PcmData → Option PcmData

/-- One recorded `replay_gain_filter_set_info` call; `none` is the null info
passed when the serial is zero. -/
abbrev SetInfoCall := Option Nat

/-- The fields of `struct music_chunk` that `ao_chunk_data` reads: the PCM
payload, the replay-gain serial and the embedded replay-gain info (kept
opaque as a `Nat`), plus the tag presence flag read by `PlayChunk`. -/
structure chunk_info where
  data : PcmData
  tag : Bool
  replay_gain_serial : Nat
  replay_gain_info : Nat
deriving DecidableEq, Repr

/-- A `music_chunk` as seen by `ao_filter_chunk`: its own payload fields, the
optional overlapping `other` chunk of the next song, and the cross-fade mix
ratio.  `other->other` is never read by this code, so one level suffices. -/
structure music_chunk where
  base : chunk_info
  other : Option chunk_info
  mix_ratio : ℚ
deriving DecidableEq, Repr

/-- Result of `ao_chunk_data`: the filtered data (`none` on filter failure),
the updated serial cell, and the `set_info` calls that were issued. -/
structure ChunkDataResult where
  data : Option PcmData
  serial : Nat
  set_info : List SetInfoCall
deriving DecidableEq, Repr

/-- `ao_chunk_data(ao, chunk, replay_gain_filter, replay_gain_serial_p,
length_r)`: if the chunk is non-empty and a replay-gain filter is present,
reconfigure it via `set_info` when the serial in the cell differs from the
chunk serial (null info for serial zero), update the cell, then filter the
PCM data; otherwise pass the data through. -/
def ao_chunk_data (replay_gain_filter : Option PcmFn) (chunk : chunk_info)
    (cell : Nat) : ChunkDataResult :=
  match replay_gain_filter with
  | none => ⟨some chunk.data, cell, []⟩
  | some f =>
    if chunk.data.length > 0 then
      let cell2 : Nat :=
        if chunk.replay_gain_serial ≠ cell then chunk.replay_gain_serial else cell
      let calls : List SetInfoCall :=
        if chunk.replay_gain_serial ≠ cell then
          [if chunk.replay_gain_serial ≠ 0 then some chunk.replay_gain_info else none]
        else []
      match f chunk.data with
      | none => ⟨none, cell2, calls⟩
      | some d => ⟨some d, cell2, calls⟩
    else ⟨some chunk.data, cell, []⟩

/-- Modelled from the spec (PcmMix.cxx is not part of the sources given):
which sample formats the cross-fade mixer supports; the undefined format
cannot be mixed. -/
def sample_format_mixable (format : Nat) : Bool := format != 0

/-- Modelled from the spec (PcmMix.cxx is not part of the sources given):
`pcm_mix(dither, dest, src, n, format, w)` mixes the first `n` samples of
`src` into `dest` with weight `w`, the destination keeping full weight; the
tail of `dest` beyond `n` is unchanged.  Fails for unmixable formats. -/
def pcm_mix (format : Nat) (dest src : PcmData) (n : Nat) (w : ℚ) : Option PcmData :=
  if sample_format_mixable format then
    some (List.zipWith (fun d s => d + s * w) (dest.take n) (src.take n) ++ dest.drop n)
  else none

/-- Result of `ao_filter_chunk`: the data handed back to `PlayChunk` (`none`
on any failure), the two updated replay-gain serial cells, and the issued
`set_info` calls in order. -/
structure FilterChunkResult where
  data : Option PcmData
  replay_gain_serial : Nat
  other_replay_gain_serial : Nat
  set_info : List SetInfoCall
deriving DecidableEq, Repr

/-- The filter stages owned by the `AudioOutput`: the optional replay-gain
filters and the main filter chain (convert filter plus user filters). -/
structure FilterCtx where
  replay_gain_filter : Option PcmFn
  other_replay_gain_filter : Option PcmFn
  main_filter : PcmFn

/-- `ao_filter_chunk(ao, chunk, length_r)`: run the primary chunk through
`ao_chunk_data`; an empty result is returned as-is.  If the chunk has an
`other` chunk, run that through the parallel replay-gain path; an empty other
result truncates the output to length zero without touching the main filter.
Otherwise clamp the primary length to the other length, copy the other data
into the cross-fade buffer and mix the primary in with weight
`1 - chunk.mix_ratio` (copying is inlined: `dest` starts as the other data),
then push the result through the main filter chain.  `format` is
`ao->in_audio_format.format`. -/
def ao_filter_chunk (fc : FilterCtx) (format : Nat) (chunk : music_chunk)
    (serial other_serial : Nat) : FilterChunkResult :=
  let r := ao_chunk_data fc.replay_gain_filter chunk.base serial
  match r.data with
  | none => ⟨none, r.serial, other_serial, r.set_info⟩
  | some data =>
    if data.length = 0 then
      ⟨some data, r.serial, other_serial, r.set_info⟩
    else
      match chunk.other with
      | none => ⟨fc.main_filter data, r.serial, other_serial, r.set_info⟩
      | some oc =>
        let ro := ao_chunk_data fc.other_replay_gain_filter oc other_serial
        match ro.data with
        | none => ⟨none, r.serial, ro.serial, r.set_info ++ ro.set_info⟩
        | some other_data =>
          if other_data.length = 0 then
            -- the source sets the returned length to zero and returns the
            -- primary pointer; observably the result is empty
            ⟨some [], r.serial, ro.serial, r.set_info ++ ro.set_info⟩
          else
            let length :=
              if data.length > other_data.length then other_data.length else data.length
            match pcm_mix format other_data data length (1 - chunk.mix_ratio) with
            | none => ⟨none, r.serial, ro.serial, r.set_info ++ ro.set_info⟩
            | some dest =>
              ⟨fc.main_filter dest, r.serial, ro.serial, r.set_info ++ ro.set_info⟩

/-- Fold `ao_chunk_data` over a sequence of chunks, threading the serial cell
and collecting all `set_info` calls in order. -/
def chunk_data_run (replay_gain_filter : Option PcmFn) (cell : Nat) :
    List chunk_info → Nat × List SetInfoCall
  | [] => (cell, [])
  | c :: rest =>
    let r := ao_chunk_data replay_gain_filter c cell
    let (cell2, calls) := chunk_data_run replay_gain_filter r.serial rest
    (cell2, r.set_info ++ calls)

/-- Follows the words of the spec, for comparison with `chunk_data_run`:
`set_info` is issued exactly for the chunks whose serial differs from the
last applied serial, with a null info for serial zero. -/
def spec_set_info_calls (cell : Nat) : List chunk_info → List SetInfoCall
  | [] => []
  | c :: rest =>
    if c.replay_gain_serial ≠ cell then
      (if c.replay_gain_serial ≠ 0 then some c.replay_gain_info else none)
        :: spec_set_info_calls c.replay_gain_serial rest
    else
      spec_set_info_calls cell rest

/-- The cross-fade buffer contents produced for a primary buffer `data` and an
other buffer `od` mixed with weight `w`: the first `min` samples mixed, the
tail of the other buffer kept as-is. -/
def cross_fade_dest (od data : PcmData) (w : ℚ) : PcmData :=
  List.zipWith (fun d s => d + s * w)
      (od.take (min data.length od.length)) (data.take (min data.length od.length))
    ++ od.drop (min data.length od.length)

theorem ao_chunk_data_set_info (f : PcmFn) (c : chunk_info) (cell : Nat)
    (h : c.data ≠ []) :
    (ao_chunk_data (some f) c cell).serial =
        (if c.replay_gain_serial ≠ cell then c.replay_gain_serial else cell)
      ∧ (ao_chunk_data (some f) c cell).set_info =
        (if c.replay_gain_serial ≠ cell then
          [if c.replay_gain_serial ≠ 0 then some c.replay_gain_info else none]
        else []) := by
  have hl : c.data.length > 0 := List.length_pos.mpr h
  unfold ao_chunk_data
  simp only [hl, if_pos]
  cases hf : f c.data <;> simp

theorem chunk_data_run_eq_spec (f : PcmFn) (cell : Nat) (chunks : List chunk_info)
    (h : ∀ c ∈ chunks, c.data ≠ []) :
    (chunk_data_run (some f) cell chunks).2 = spec_set_info_calls cell chunks := by
  induction chunks generalizing cell with
  | nil => rfl
  | cons c rest ih =>
    have hc : c.data ≠ [] := h c (List.mem_cons_self c rest)
    have hrest : ∀ x ∈ rest, x.data ≠ [] := fun x hx => h x (List.mem_cons_of_mem c hx)
    obtain ⟨hser, hsi⟩ := ao_chunk_data_set_info f c cell hc
    show ((ao_chunk_data (some f) c cell).set_info ++
        (chunk_data_run (some f) (ao_chunk_data (some f) c cell).serial rest).2) =
      spec_set_info_calls cell (c :: rest)
    rw [hser, hsi]
    by_cases hne : c.replay_gain_serial ≠ cell
    · simp only [hne, if_pos, spec_set_info_calls, ih _ hrest]
      simp [hne]
    · simp only [hne, if_neg, spec_set_info_calls, ih _ hrest]
      simp [hne]

/-- C6 (amended to non-empty chunks): over any sequence of chunks with
non-empty PCM data processed through `ao_chunk_data` with a replay-gain
filter present, `set_info` is called exactly when the chunk serial differs
from the serial cell, with a null info when the serial is zero; and two
consecutive such chunks with the same serial cause exactly one `set_info`
call.  (A zero-length tag-only chunk is skipped even when its serial
differs; see the counterexample.) -/
theorem C6_replay_gain_set_info (f : PcmFn) (cell : Nat) (chunks : List chunk_info)
    (h : ∀ c ∈ chunks, c.data ≠ []) :
    (chunk_data_run (some f) cell chunks).2 = spec_set_info_calls cell chunks
    ∧ (∀ c1 c2 : chunk_info, c1.data ≠ [] → c2.data ≠ [] →
        c1.replay_gain_serial = c2.replay_gain_serial →
        c1.replay_gain_serial ≠ cell →
        (chunk_data_run (some f) cell [c1, c2]).2.length = 1) := by
  refine ⟨chunk_data_run_eq_spec f cell chunks h, ?_⟩
  intro c1 c2 h1 h2 heq hne
  rw [chunk_data_run_eq_spec f cell [c1, c2] (by
    intro c hc
    rcases List.mem_cons.mp hc with rfl | hc
    · exact h1
    · rcases List.mem_cons.mp hc with rfl | hc
      · exact h2
      · cases hc)]
  have hne2 : ¬ c2.replay_gain_serial ≠ c1.replay_gain_serial := by
    simp [heq]
  simp [spec_set_info_calls, hne, hne2]

/-- C6 counterexample: a zero-length (tag-only) chunk whose serial differs
from the cell is processed through `ao_chunk_data` without any `set_info`
call, while the claim (the spec sentence, `spec_set_info_calls`) demands one
reconfiguration with its info. -/
theorem C6_counterexample :
    (chunk_data_run (some (fun d => some d)) 0 [⟨[], false, 5, 7⟩]).2 = []
    ∧ spec_set_info_calls 0 [⟨[], false, 5, 7⟩] = [some 7]
    ∧ (⟨[], false, 5, 7⟩ : chunk_info).replay_gain_serial ≠ 0 := by
  decide

theorem C6_witness :
    (chunk_data_run (some (fun d => some d)) 0
        [⟨[1], false, 5, 7⟩, ⟨[2], false, 5, 9⟩]).2 =
      spec_set_info_calls 0 [⟨[1], false, 5, 7⟩, ⟨[2], false, 5, 9⟩]
    ∧ (chunk_data_run (some (fun d => some d)) 0
        [⟨[1], false, 5, 7⟩, ⟨[2], false, 5, 9⟩]).2.length = 1 :=
  ⟨(C6_replay_gain_set_info (fun d => some d) 0
      [⟨[1], false, 5, 7⟩, ⟨[2], false, 5, 9⟩] (by decide)).1,
   (C6_replay_gain_set_info (fun d => some d) 0
      [⟨[1], false, 5, 7⟩, ⟨[2], false, 5, 9⟩] (by decide)).2
      ⟨[1], false, 5, 7⟩ ⟨[2], false, 5, 9⟩ (by decide) (by decide) rfl (by decide)⟩

/-- C3: for a chunk with an `other` chunk where both the primary and the
other replay-gain stage produce non-empty data, `ao_filter_chunk` clamps the
primary length to the minimum of the two lengths, mixes the primary data into
a copy of the other data with weight `1 - chunk.mix_ratio`, the mixed buffer
has length exactly the other length, and exactly that buffer is pushed
through the main filter chain (serials and set_info calls from both
replay-gain stages are threaded through). -/
theorem C3_cross_fade (fc : FilterCtx) (format : Nat) (chunk : music_chunk)
    (oc : chunk_info) (serial other_serial : Nat) (data other_data : PcmData)
    (hother : chunk.other = some oc)
    (hr : (ao_chunk_data fc.replay_gain_filter chunk.base serial).data = some data)
    (hdata : data ≠ [])
    (hro : (ao_chunk_data fc.other_replay_gain_filter oc other_serial).data
        = some other_data)
    (hod : other_data ≠ [])
    (hmix : sample_format_mixable format = true) :
    pcm_mix format other_data data (min data.length other_data.length)
        (1 - chunk.mix_ratio)
      = some (cross_fade_dest other_data data (1 - chunk.mix_ratio))
    ∧ (cross_fade_dest other_data data (1 - chunk.mix_ratio)).length
        = other_data.length
    ∧ ao_filter_chunk fc format chunk serial other_serial =
        ⟨fc.main_filter (cross_fade_dest other_data data (1 - chunk.mix_ratio)),
         (ao_chunk_data fc.replay_gain_filter chunk.base serial).serial,
         (ao_chunk_data fc.other_replay_gain_filter oc other_serial).serial,
         (ao_chunk_data fc.replay_gain_filter chunk.base serial).set_info ++
           (ao_chunk_data fc.other_replay_gain_filter oc other_serial).set_info⟩ := by
  have hld : data.length ≠ 0 := fun hz => hdata (List.length_eq_zero.mp hz)
  have hlo : other_data.length ≠ 0 := fun hz => hod (List.length_eq_zero.mp hz)
  have hclamp : (if data.length > other_data.length then other_data.length
      else data.length) = min data.length other_data.length := by
    rcases Nat.lt_or_ge other_data.length data.length with hlt | hle
    · simp [hlt, Nat.min_eq_right (Nat.le_of_lt hlt)]
    · have : ¬ data.length > other_data.length := Nat.not_lt.mpr hle
      simp [this, Nat.min_eq_left hle]
  have hpm : pcm_mix format other_data data (min data.length other_data.length)
      (1 - chunk.mix_ratio)
      = some (cross_fade_dest other_data data (1 - chunk.mix_ratio)) := by
    unfold pcm_mix cross_fade_dest
    simp [hmix]
  have hlen : (cross_fade_dest other_data data (1 - chunk.mix_ratio)).length
      = other_data.length := by
    unfold cross_fade_dest
    simp only [List.length_append, List.length_zipWith, List.length_take,
      List.length_drop]
    omega
  refine ⟨hpm, hlen, ?_⟩
  unfold ao_filter_chunk
  simp only [hr, hld, if_neg, hother]
  simp only [hro, hlo, if_neg]
  simp only [hclamp, hpm]
  simp [hld, hlo]

theorem C3_witness :
    ao_filter_chunk ⟨none, none, fun d => some d⟩ 1
        ⟨⟨[1, 2, 3, 4, 5], false, 0, 0⟩, some ⟨[10, 20, 30], false, 0, 0⟩, 1/4⟩ 0 0 =
      ⟨(fun d => some d)
          (cross_fade_dest [10, 20, 30] [1, 2, 3, 4, 5] (1 - (1/4 : ℚ))),
       (ao_chunk_data none
          (⟨⟨[1, 2, 3, 4, 5], false, 0, 0⟩, some ⟨[10, 20, 30], false, 0, 0⟩,
            1/4⟩ : music_chunk).base 0).serial,
       (ao_chunk_data none (⟨[10, 20, 30], false, 0, 0⟩ : chunk_info) 0).serial,
       (ao_chunk_data none
          (⟨⟨[1, 2, 3, 4, 5], false, 0, 0⟩, some ⟨[10, 20, 30], false, 0, 0⟩,
            1/4⟩ : music_chunk).base 0).set_info ++
         (ao_chunk_data none (⟨[10, 20, 30], false, 0, 0⟩ : chunk_info) 0).set_info⟩ :=
  (C3_cross_fade ⟨none, none, fun d => some d⟩ 1
    ⟨⟨[1, 2, 3, 4, 5], false, 0, 0⟩, some ⟨[10, 20, 30], false, 0, 0⟩, 1/4⟩
    ⟨[10, 20, 30], false, 0, 0⟩ 0 0 [1, 2, 3, 4, 5] [10, 20, 30]
    rfl rfl (by decide) rfl (by decide) rfl).2.2

/-- The mailbox commands (`enum audio_output_command`). -/
inductive ao_command
  | NONE | ENABLE | DISABLE | OPEN | REOPEN | CLOSE | PAUSE | DRAIN | CANCEL | KILL
deriving DecidableEq, Repr

/-- Observable calls the worker makes with the mutex released (plugin and
filter calls, signals), recorded in order in an event trace. -/
inductive Ev
  | plugin_enable
  | plugin_disable
  | rg_filter_open
  | rg_filter_close
  | other_rg_filter_open
  | other_rg_filter_close
  | filter_open
  | filter_close
  | plugin_open (f : AudioFormat)
  | plugin_close
  | convert_set (f : AudioFormat)
  | plugin_play (requested returned : Nat)
  | plugin_pause
  | plugin_drain
  | plugin_cancel
  | plugin_send_tag
  | client_notify
  | player_signal
  | set_info (i : SetInfoCall)
deriving DecidableEq, Repr

/-- The `AudioOutput` fields the worker reads and writes under the mutex.
`pipe` and the chunk stream are reference-like: the pipe is an opaque
reference, the chunks themselves are supplied by the play environment. -/
structure AOState where
  really_enabled : Bool
  «open» : Bool
  pause : Bool
  allow_play : Bool
  woken_for_play : Bool
  tags : Bool
  in_playback_loop : Bool
  current_chunk : Option music_chunk
  current_chunk_finished : Bool
  pipe : Option Nat
  in_audio_format : AudioFormat
  out_audio_format : AudioFormat
  config_audio_format : AudioFormat
  replay_gain_serial : Nat
  other_replay_gain_serial : Nat
  fail_timer : Bool
  command : ao_command
deriving DecidableEq, Repr

/-- Oracle for the plugin and filter calls made while opening: the results of
`ao_plugin_enable`, the three filter opens, `ao_plugin_open` and
`convert_filter_set`. -/
structure OpenEnv where
  enable_ok : Bool
  rg_open_ok : Bool
  other_rg_open_ok : Bool
  filter_open_format : AudioFormat
  plugin_open_ok : Bool
  convert_ok : Bool
deriving DecidableEq, Repr

/-- `AudioOutput::CommandFinished()`: acknowledge by clearing the command
slot and signalling the client notify event; while the mutex is released the
controller may post a fresh command (`arrival`, `NONE` when it does not). -/
def CommandFinished (arrival : ao_command) (s : AOState) : AOState × List Ev :=
  ({ s with command := arrival }, [Ev.client_notify])

/-- `AudioOutput::Enable()`: call `ao_plugin_enable` unless already enabled;
on success set `really_enabled`. -/
def Enable (e : OpenEnv) (s : AOState) : AOState × Bool × List Ev :=
  if s.really_enabled then (s, true, [])
  else if e.enable_ok then ({ s with really_enabled := true }, true, [Ev.plugin_enable])
  else (s, false, [Ev.plugin_enable])

/-- The filter-close calls of `AudioOutput::CloseFilter()`. -/
def CloseFilterEvents (fc : FilterCtx) : List Ev :=
  (if fc.replay_gain_filter.isSome then [Ev.rg_filter_close] else []) ++
  (if fc.other_replay_gain_filter.isSome then [Ev.other_rg_filter_close] else []) ++
  [Ev.filter_close]

/-- `AudioOutput::OpenFilter(format)`: open the replay-gain filters then the
main filter chain, closing whatever was opened when a later stage fails;
returns the chain output format (`Undefined` on failure). -/
def OpenFilter (fc : FilterCtx) (e : OpenEnv) : AudioFormat × List Ev :=
  if fc.replay_gain_filter.isSome && !e.rg_open_ok then
    (AudioFormat.Undefined, [Ev.rg_filter_open])
  else
    let ev1 := if fc.replay_gain_filter.isSome then [Ev.rg_filter_open] else []
    if fc.other_replay_gain_filter.isSome && !e.other_rg_open_ok then
      (AudioFormat.Undefined,
        ev1 ++ [Ev.other_rg_filter_open] ++
          (if fc.replay_gain_filter.isSome then [Ev.rg_filter_close] else []))
    else
      let ev2 := if fc.other_replay_gain_filter.isSome then [Ev.other_rg_filter_open] else []
      let af := e.filter_open_format
      if !af.IsDefined then
        (af, ev1 ++ ev2 ++ [Ev.filter_open] ++
          (if fc.replay_gain_filter.isSome then [Ev.rg_filter_close] else []) ++
          (if fc.other_replay_gain_filter.isSome then [Ev.other_rg_filter_close] else []))
      else
        (af, ev1 ++ ev2 ++ [Ev.filter_open])

/-- `AudioOutput::Open()`: reset the fail timer, ensure the device is
enabled, open the filter chain, derive `out_audio_format` by masking with the
configured format, open the plugin, configure the convert filter; any failure
after the filter open closes the filters and sets the fail timer, an enable
failure just returns.  Asserted preconditions (not enforced here, carried as
theorem hypotheses): `!open`, `pipe != nullptr`, `current_chunk == nullptr`,
`in_audio_format.IsValid()`. -/
def Open (fc : FilterCtx) (e : OpenEnv) (s : AOState) : AOState × List Ev :=
  let s0 := { s with fail_timer := false }
  let en := Enable e s0
  let s1 := en.1
  let ev0 := en.2.2
  if !en.2.1 then (s1, ev0)
  else
    let ofr := OpenFilter fc e
    let faf := ofr.1
    let ev1 := ofr.2
    if !faf.IsDefined then
      ({ s1 with fail_timer := true }, ev0 ++ ev1)
    else
      let s2 := { s1 with out_audio_format := faf.ApplyMask s1.config_audio_format }
      if !e.plugin_open_ok then
        ({ s2 with fail_timer := true },
         ev0 ++ ev1 ++ [Ev.plugin_open s2.out_audio_format] ++ CloseFilterEvents fc)
      else if !e.convert_ok then
        ({ s2 with fail_timer := true },
         ev0 ++ ev1 ++ [Ev.plugin_open s2.out_audio_format,
           Ev.convert_set s2.out_audio_format] ++ CloseFilterEvents fc)
      else
        ({ s2 with «open» := true },
         ev0 ++ ev1 ++ [Ev.plugin_open s2.out_audio_format,
           Ev.convert_set s2.out_audio_format])

/-- The backend calls of `AudioOutput::Close(drain)`: drain or cancel, close
the plugin, close the filter chain. -/
def CloseEvents (fc : FilterCtx) (drain : Bool) : List Ev :=
  [if drain then Ev.plugin_drain else Ev.plugin_cancel, Ev.plugin_close] ++
    CloseFilterEvents fc

/-- `AudioOutput::Close(drain)`: clear `pipe` and `current_chunk`, clear
`open`, then with the mutex released drain or cancel, close the plugin and
close the filter chain.  Asserted precondition: `open`. -/
def Close (fc : FilterCtx) (drain : Bool) (s : AOState) : AOState × List Ev :=
  ({ s with pipe := none, current_chunk := none, «open» := false },
   CloseEvents fc drain)

/-- `AudioOutput::ReopenFilter()`: close and reopen the filter chain against
`in_audio_format` and reconfigure the convert filter; on failure perform the
`Close()` teardown without re-closing the filter chain. -/
def ReopenFilter (fc : FilterCtx) (e : OpenEnv) (s : AOState) : AOState × List Ev :=
  let evc := CloseFilterEvents fc
  let ofr := OpenFilter fc e
  let faf := ofr.1
  let ev1 := ofr.2
  if !faf.IsDefined then
    ({ s with pipe := none, current_chunk := none, «open» := false, fail_timer := true },
     evc ++ ev1 ++ [Ev.plugin_close])
  else if !e.convert_ok then
    ({ s with pipe := none, current_chunk := none, «open» := false, fail_timer := true },
     evc ++ ev1 ++ [Ev.convert_set s.out_audio_format, Ev.plugin_close])
  else
    (s, evc ++ ev1 ++ [Ev.convert_set s.out_audio_format])

/-- `AudioOutput::Reopen()`: if no full audio format is configured, close
with drain while preserving the pipe reference and copy the masked input
format to `out_audio_format`; then either reconfigure the filters (still
open) or perform a regular `Open()`. -/
def Reopen (fc : FilterCtx) (e : OpenEnv) (s : AOState) : AOState × List Ev :=
  let r1 : AOState × List Ev :=
    if !s.config_audio_format.IsFullyDefined then
      let r2 : AOState × List Ev :=
        if s.«open» then
          let mp := s.pipe
          let rc := Close fc true s
          ({ rc.1 with pipe := mp }, rc.2)
        else (s, [])
      ({ r2.1 with
          out_audio_format := r2.1.in_audio_format.ApplyMask r2.1.config_audio_format },
       r2.2)
    else (s, [])
  let s1 := r1.1
  if s1.«open» then
    let r2 := ReopenFilter fc e s1
    (r2.1, r1.2 ++ r2.2)
  else
    let r2 := Open fc e s1
    (r2.1, r1.2 ++ r2.2)

/-- `AudioOutput::Disable()`: close (without drain) if open, then disable the
plugin if it was enabled. -/
def Disable (fc : FilterCtx) (s : AOState) : AOState × List Ev :=
  let r1 : AOState × List Ev := if s.«open» then Close fc false s else (s, [])
  let s1 := r1.1
  if s1.really_enabled then
    ({ s1 with really_enabled := false }, r1.2 ++ [Ev.plugin_disable])
  else (s1, r1.2)

/-- Oracle for one iteration of the inner play loop of
`AudioOutput::PlayChunk`: the `WaitForDelay` outcome (with the command the
wait observed when it was interrupted), the `ao_plugin_play` return value and
the command observed after the mutex is re-acquired.  Per the mailbox
discipline a command can only arrive while the slot is `NONE`. -/
structure PlayIter where
  wd_ok : Bool
  cmd_after_wait : ao_command
  nbytes : Nat
  cmd_after_play : ao_command
deriving DecidableEq, Repr

/-- The `while (size > 0 && command == NONE)` loop of
`AudioOutput::PlayChunk`: wait for the delay (break on command), play, on a
zero return close abruptly, set the fail timer and return `false`; otherwise
consume the played bytes.  The iteration oracle list bounds the loop; an
exhausted oracle exits the loop as an interrupting command would. -/
def PlayChunkLoop (fc : FilterCtx) : List PlayIter → AOState → Nat →
    AOState × Bool × List Ev
  | [], s, _ => (s, true, [])
  | it :: rest, s, size =>
    if size > 0 ∧ s.command = ao_command.NONE then
      if !it.wd_ok then
        ({ s with command := it.cmd_after_wait }, true, [])
      else
        let s2 := { s with command := it.cmd_after_play }
        if it.nbytes = 0 then
          let rc := Close fc false s2
          ({ rc.1 with fail_timer := true }, false, [Ev.plugin_play size 0] ++ rc.2)
        else
          let rr := PlayChunkLoop fc rest s2 (size - it.nbytes)
          (rr.1, rr.2.1, [Ev.plugin_play size it.nbytes] ++ rr.2.2)
    else (s, true, [])

/-- Oracle for one `PlayChunk` call: the command observed after the tag send
(applied only when a tag is sent) and the inner-loop iterations. -/
structure ChunkEnv where
  cmd_after_tag : ao_command
  iters : List PlayIter
deriving DecidableEq, Repr

/-- `AudioOutput::PlayChunk(chunk)`: send the tag if enabled and present,
filter the chunk (a null result closes abruptly, sets the fail timer and
returns `false`), then the inner play loop. -/
def PlayChunk (fc : FilterCtx) (ce : ChunkEnv) (s : AOState) (chunk : music_chunk) :
    AOState × Bool × List Ev :=
  let r0 : AOState × List Ev :=
    if s.tags && chunk.base.tag then
      ({ s with command := ce.cmd_after_tag }, [Ev.plugin_send_tag])
    else (s, [])
  let s0 := r0.1
  let ev0 := r0.2
  let r := ao_filter_chunk fc s0.in_audio_format.format chunk
    s0.replay_gain_serial s0.other_replay_gain_serial
  let s1 := { s0 with replay_gain_serial := r.replay_gain_serial,
                      other_replay_gain_serial := r.other_replay_gain_serial }
  let evf := r.set_info.map Ev.set_info
  match r.data with
  | none =>
    let rc := Close fc false s1
    ({ rc.1 with fail_timer := true }, false, ev0 ++ evf ++ rc.2)
  | some data =>
    let rl := PlayChunkLoop fc ce.iters s1 data.length
    (rl.1, rl.2.1, ev0 ++ evf ++ rl.2.2)

/-- The chunk loop of `AudioOutput::Play()`: for each chunk in play order
while no command is pending, set `current_chunk` and play it; a `PlayChunk`
failure (which has cleared `current_chunk` via the close path) breaks. -/
def PlayLoop (fc : FilterCtx) : List (music_chunk × ChunkEnv) → AOState →
    AOState × List Ev
  | [], s => (s, [])
  | (chunk, ce) :: rest, s =>
    if s.command = ao_command.NONE then
      let s1 := { s with current_chunk := some chunk }
      let rp := PlayChunk fc ce s1 chunk
      if !rp.2.1 then (rp.1, rp.2.2)
      else
        let rr := PlayLoop fc rest rp.1
        (rr.1, rp.2.2 ++ rr.2)
    else (s, [])

/-- Oracle for one `Play()` call: the chunk stream starting at
`GetNextChunk()` together with the per-chunk oracles, and the command
observed after the completion signal to the player (which can only arrive if
the slot was `NONE`). -/
structure PlayEnv where
  chunks : List (music_chunk × ChunkEnv)
  cmd_after_signal : ao_command
deriving DecidableEq, Repr

/-- `AudioOutput::Play()`: return `false` if no chunk is available; otherwise
mark the playback loop, run the chunk loop, clear the mark, set
`current_chunk_finished`, signal the player controller with the mutex
released and return `true`.  Asserted precondition: `pipe != nullptr`. -/
def Play (fc : FilterCtx) (pe : PlayEnv) (s : AOState) : AOState × Bool × List Ev :=
  match pe.chunks with
  | [] => (s, false, [])
  | c :: cs =>
    let s0 := { s with current_chunk_finished := false, in_playback_loop := true }
    let rl := PlayLoop fc (c :: cs) s0
    let s2 := { rl.1 with in_playback_loop := false, current_chunk_finished := true }
    let s3 := { s2 with command :=
      if s2.command = ao_command.NONE then pe.cmd_after_signal else s2.command }
    (s3, true, rl.2 ++ [Ev.player_signal])

/-- Oracle for one iteration of the `do`-loop of `AudioOutput::Pause()`. -/
structure PauseIter where
  wd_ok : Bool
  cmd_after_wait : ao_command
  pause_ok : Bool
  cmd_after_pause : ao_command
deriving DecidableEq, Repr

/-- The `do { ... } while (command == NONE)` loop of `AudioOutput::Pause()`:
wait for the delay (break on command), call `ao_plugin_pause`; a pause
failure closes abruptly and breaks.  An exhausted oracle exits the loop. -/
def PauseLoop (fc : FilterCtx) : List PauseIter → AOState → AOState × List Ev
  | [], s => (s, [])
  | it :: rest, s =>
    if !it.wd_ok then
      ({ s with command := it.cmd_after_wait }, [])
    else
      let s1 := { s with command := it.cmd_after_pause }
      if !it.pause_ok then
        let rc := Close fc false s1
        (rc.1, [Ev.plugin_pause] ++ rc.2)
      else if s1.command = ao_command.NONE then
        let rr := PauseLoop fc rest s1
        (rr.1, [Ev.plugin_pause] ++ rr.2)
      else (s1, [Ev.plugin_pause])

/-- `AudioOutput::Pause()`: cancel the plugin, set `pause`, acknowledge the
command, run the pause loop, clear `pause`. -/
def Pause (fc : FilterCtx) (iters : List PauseIter) (arrival : ao_command)
    (s : AOState) : AOState × List Ev :=
  let s1 := { s with pause := true }
  let rf := CommandFinished arrival s1
  let rl := PauseLoop fc iters rf.1
  ({ rl.1 with pause := false }, [Ev.plugin_cancel] ++ rf.2 ++ rl.2)

/-- The control signal of one iteration of the `while (1)` loop of
`AudioOutput::Task()`: `Idle` falls through to the play attempt and the
condvar wait, `Continue` re-dispatches immediately, `Terminated` exits. -/
inductive Control
  | Idle | Continue | Terminated
deriving DecidableEq, Repr

/-- Oracle for one dispatch: the open-path results, the pause-loop
iterations and the command arrival during the acknowledge signal. -/
structure DispatchEnv where
  oenv : OpenEnv
  pause_iters : List PauseIter
  cmd_after_finish : ao_command
deriving DecidableEq, Repr

/-- The `switch (command)` of `AudioOutput::Task()`: dispatch one command.
`PAUSE`, `DRAIN` and `CANCEL` continue the loop so that a follow-up command
is dispatched without an intervening play attempt; `KILL` terminates. -/
def TaskDispatch (fc : FilterCtx) (de : DispatchEnv) (s : AOState) :
    AOState × Control × List Ev :=
  match s.command with
  | ao_command.NONE => (s, Control.Idle, [])
  | ao_command.ENABLE =>
    let r1 := Enable de.oenv s
    let r2 := CommandFinished de.cmd_after_finish r1.1
    (r2.1, Control.Idle, r1.2.2 ++ r2.2)
  | ao_command.DISABLE =>
    let r1 := Disable fc s
    let r2 := CommandFinished de.cmd_after_finish r1.1
    (r2.1, Control.Idle, r1.2 ++ r2.2)
  | ao_command.OPEN =>
    let r1 := Open fc de.oenv s
    let r2 := CommandFinished de.cmd_after_finish r1.1
    (r2.1, Control.Idle, r1.2 ++ r2.2)
  | ao_command.REOPEN =>
    let r1 := Reopen fc de.oenv s
    let r2 := CommandFinished de.cmd_after_finish r1.1
    (r2.1, Control.Idle, r1.2 ++ r2.2)
  | ao_command.CLOSE =>
    let r1 := Close fc false s
    let r2 := CommandFinished de.cmd_after_finish r1.1
    (r2.1, Control.Idle, r1.2 ++ r2.2)
  | ao_command.PAUSE =>
    if !s.«open» then
      let r1 := CommandFinished de.cmd_after_finish s
      (r1.1, Control.Idle, r1.2)
    else
      let r1 := Pause fc de.pause_iters de.cmd_after_finish s
      (r1.1, Control.Continue, r1.2)
  | ao_command.DRAIN =>
    let ev0 := if s.«open» then [Ev.plugin_drain] else []
    let r1 := CommandFinished de.cmd_after_finish s
    (r1.1, Control.Continue, ev0 ++ r1.2)
  | ao_command.CANCEL =>
    let s0 := { s with current_chunk := none }
    let ev0 := if s.«open» then [Ev.plugin_cancel] else []
    let r1 := CommandFinished de.cmd_after_finish s0
    (r1.1, Control.Continue, ev0 ++ r1.2)
  | ao_command.KILL =>
    let r1 := CommandFinished de.cmd_after_finish { s with current_chunk := none }
    (r1.1, Control.Terminated, r1.2)

/-- The idle tail of the `Task` loop: if no command is pending, clear
`woken_for_play` and wait on the condvar; a command may arrive during the
wait. -/
def IdleWait (arrival : ao_command) (s : AOState) : AOState :=
  if s.command = ao_command.NONE then
    { s with woken_for_play := false, command := arrival }
  else s

/-- Oracle for one full iteration of the `Task` loop. -/
structure StepEnv where
  de : DispatchEnv
  pe : PlayEnv
  cmd_after_idle_wait : ao_command
deriving DecidableEq, Repr

/-- One iteration of the `while (1)` loop of `AudioOutput::Task()`: dispatch
the pending command; unless the dispatch continued or terminated, attempt a
play step when open and allowed, re-dispatching immediately if chunks were
consumed, and otherwise wait on the condvar when no command is pending. -/
def TaskStep (fc : FilterCtx) (se : StepEnv) (s : AOState) :
    AOState × Control × List Ev :=
  let rd := TaskDispatch fc se.de s
  let s1 := rd.1
  match rd.2.1 with
  | Control.Terminated => (s1, Control.Terminated, rd.2.2)
  | Control.Continue => (s1, Control.Continue, rd.2.2)
  | Control.Idle =>
    if s1.«open» && s1.allow_play then
      let rp := Play fc se.pe s1
      if rp.2.1 then (rp.1, Control.Continue, rd.2.2 ++ rp.2.2)
      else (IdleWait se.cmd_after_idle_wait rp.1, Control.Idle, rd.2.2 ++ rp.2.2)
    else (IdleWait se.cmd_after_idle_wait s1, Control.Idle, rd.2.2)

/-- A sample filter context with no replay-gain filters and an identity main
filter chain, for concrete instances. -/
def fc0 : FilterCtx := ⟨none, none, fun d => some d⟩

/-- A sample closed idle state, for concrete instances. -/
def s0 : AOState where
  really_enabled := false
  «open» := false
  pause := false
  allow_play := false
  woken_for_play := false
  tags := false
  in_playback_loop := false
  current_chunk := none
  current_chunk_finished := true
  pipe := some 0
  in_audio_format := ⟨44100, 1, 2⟩
  out_audio_format := AudioFormat.Undefined
  config_audio_format := AudioFormat.Undefined
  replay_gain_serial := 0
  other_replay_gain_serial := 0
  fail_timer := false
  command := ao_command.NONE

/-- A sample all-successful open environment, for concrete instances. -/
def oenv0 : OpenEnv := ⟨true, true, true, ⟨44100, 1, 2⟩, true, true⟩

/-- A sample dispatch environment with no command arrivals, for concrete
instances. -/
def de0 : DispatchEnv := ⟨oenv0, [], ao_command.NONE⟩

/-- C8: a `PAUSE` command received while the output is closed is acknowledged
immediately: the only event is the client notification (no backend call of
any kind) and every state field other than `command` is unchanged. -/
theorem C8_pause_closed (fc : FilterCtx) (de : DispatchEnv) (s : AOState)
    (hc : s.command = ao_command.PAUSE) (ho : s.«open» = false) :
    TaskDispatch fc de s =
      ({ s with command := de.cmd_after_finish }, Control.Idle, [Ev.client_notify]) := by
  simp [TaskDispatch, hc, ho, CommandFinished]

theorem C8_witness :
    TaskDispatch fc0 de0 { s0 with command := ao_command.PAUSE } =
      ({ { s0 with command := ao_command.PAUSE } with command := de0.cmd_after_finish },
       Control.Idle, [Ev.client_notify]) :=
  C8_pause_closed fc0 de0 { s0 with command := ao_command.PAUSE } rfl rfl

/-- C10: the `KILL` command terminates the worker without closing the device:
it clears `current_chunk`, acknowledges (the only event is the client
notification; no backend close, drain or cancel, and the filter chain is not
closed) and exits the task loop; `open` and `pipe` are left as they were. -/
theorem C10_kill :
    (∀ (fc : FilterCtx) (de : DispatchEnv) (s : AOState),
      s.command = ao_command.KILL →
      TaskDispatch fc de s =
        ({ s with current_chunk := none, command := de.cmd_after_finish },
         Control.Terminated, [Ev.client_notify]))
    ∧ (∀ (fc : FilterCtx) (se : StepEnv) (s : AOState),
      s.command = ao_command.KILL →
      TaskStep fc se s =
        ({ s with current_chunk := none, command := se.de.cmd_after_finish },
         Control.Terminated, [Ev.client_notify])) := by
  constructor
  · intro fc de s hc
    simp [TaskDispatch, hc, CommandFinished]
  · intro fc se s hc
    simp [TaskStep, TaskDispatch, hc, CommandFinished]

theorem C10_witness :
    TaskStep fc0 ⟨de0, ⟨[], ao_command.NONE⟩, ao_command.NONE⟩
        { s0 with command := ao_command.KILL, «open» := true } =
      ({ { s0 with command := ao_command.KILL, «open» := true } with
          current_chunk := none, command := ao_command.NONE },
       Control.Terminated, [Ev.client_notify]) :=
  C10_kill.2 fc0 ⟨de0, ⟨[], ao_command.NONE⟩, ao_command.NONE⟩
    { s0 with command := ao_command.KILL, «open» := true } rfl

theorem Enable_fields (e : OpenEnv) (s : AOState) :
    (Enable e s).1.pipe = s.pipe
    ∧ (Enable e s).1.in_audio_format = s.in_audio_format
    ∧ (Enable e s).1.«open» = s.«open»
    ∧ (Enable e s).1.fail_timer = s.fail_timer
    ∧ (Enable e s).1.config_audio_format = s.config_audio_format
    ∧ ((Enable e s).2.1 = true → (Enable e s).1.really_enabled = true) := by
  unfold Enable
  by_cases h1 : s.really_enabled <;> by_cases h2 : e.enable_ok <;> simp [h1, h2]

theorem Open_pipe (fc : FilterCtx) (e : OpenEnv) (s : AOState) :
    (Open fc e s).1.pipe = s.pipe := by
  unfold Open
  have h1 := (Enable_fields e { s with fail_timer := false }).1
  by_cases hok : (Enable e { s with fail_timer := false }).2.1 <;>
    by_cases hdef : (OpenFilter fc e).1.IsDefined <;>
    by_cases hpo : e.plugin_open_ok <;>
    by_cases hcv : e.convert_ok <;>
    simp [hok, hdef, hpo, hcv, h1]

/-- C7: a `REOPEN` received while `config_audio_format` is not fully defined
and the output is open performs an implicit close with drain (its event trace
starts with the drain-close sequence) and the `pipe` reference afterwards is
the one from before the command. -/
theorem C7_reopen_preserves_pipe (fc : FilterCtx) (e : OpenEnv) (s : AOState)
    (hcfg : s.config_audio_format.IsFullyDefined = false)
    (ho : s.«open» = true) :
    (Reopen fc e s).1.pipe = s.pipe
    ∧ ∃ tl, (Reopen fc e s).2 = CloseEvents fc true ++ tl := by
  unfold Reopen
  simp only [hcfg, ho, Close, Bool.not_false, if_true, if_pos]
  constructor
  · simp [Open_pipe]
  · exact ⟨_, rfl⟩

theorem C7_witness :
    (Reopen fc0 oenv0
        { s0 with «open» := true, really_enabled := true }).1.pipe =
      ({ s0 with «open» := true, really_enabled := true } : AOState).pipe
    ∧ ∃ tl, (Reopen fc0 oenv0
        { s0 with «open» := true, really_enabled := true }).2 =
      CloseEvents fc0 true ++ tl :=
  C7_reopen_preserves_pipe fc0 oenv0
    { s0 with «open» := true, really_enabled := true } rfl rfl

/-- C4 counterexample: when `ao_plugin_enable` fails during the `OPEN`
command, `Open` returns with the fail timer merely reset (here it was even
defined before the call and is cleared), contradicting the claim that every
`OPEN` failure calls `fail_timer.update()`.  The trace shows the failed
enable call and the output remains closed. -/
theorem C4_counterexample :
    (Open fc0 ⟨false, true, true, ⟨44100, 1, 2⟩, true, true⟩
        { s0 with fail_timer := true }).1.fail_timer = false
    ∧ (Open fc0 ⟨false, true, true, ⟨44100, 1, 2⟩, true, true⟩
        { s0 with fail_timer := true }).2 = [Ev.plugin_enable]
    ∧ (Open fc0 ⟨false, true, true, ⟨44100, 1, 2⟩, true, true⟩
        { s0 with fail_timer := true }).1.«open» = false := by
  decide

/-- C4 amended: during the `OPEN` command, every filter-open, backend-open or
convert-filter failure — whether the device was already enabled or the
internal `Enable()` call just succeeded from a disabled state — closes
whichever pieces were opened and calls `fail_timer.update()`, leaving the
output closed; an enable failure also leaves the output closed, but returns
with the fail timer reset (cleared by the `fail_timer.Reset()` at the top of
`Open`), not updated. -/
theorem C4_open_failure (fc : FilterCtx) (e : OpenEnv) (s : AOState)
    (ho : s.«open» = false) :
    (s.really_enabled = false → e.enable_ok = false →
      Open fc e s = ({ s with fail_timer := false }, [Ev.plugin_enable])
      ∧ (Open fc e s).1.«open» = false)
    ∧ ((s.really_enabled = true ∨ e.enable_ok = true) →
      (OpenFilter fc e).1.IsDefined = false →
      Open fc e s = ({ s with
          really_enabled := true
          fail_timer := true },
        (if s.really_enabled then [] else [Ev.plugin_enable]) ++ (OpenFilter fc e).2)
      ∧ (Open fc e s).1.«open» = false)
    ∧ ((s.really_enabled = true ∨ e.enable_ok = true) →
      (OpenFilter fc e).1.IsDefined = true →
      e.plugin_open_ok = false →
      Open fc e s = ({ s with
          really_enabled := true
          fail_timer := true
          out_audio_format := (OpenFilter fc e).1.ApplyMask s.config_audio_format },
        (if s.really_enabled then [] else [Ev.plugin_enable]) ++ (OpenFilter fc e).2 ++
          [Ev.plugin_open ((OpenFilter fc e).1.ApplyMask s.config_audio_format)] ++
          CloseFilterEvents fc)
      ∧ (Open fc e s).1.«open» = false)
    ∧ ((s.really_enabled = true ∨ e.enable_ok = true) →
      (OpenFilter fc e).1.IsDefined = true →
      e.plugin_open_ok = true → e.convert_ok = false →
      Open fc e s = ({ s with
          really_enabled := true
          fail_timer := true
          out_audio_format := (OpenFilter fc e).1.ApplyMask s.config_audio_format },
        (if s.really_enabled then [] else [Ev.plugin_enable]) ++ (OpenFilter fc e).2 ++
          [Ev.plugin_open ((OpenFilter fc e).1.ApplyMask s.config_audio_format),
           Ev.convert_set ((OpenFilter fc e).1.ApplyMask s.config_audio_format)] ++
          CloseFilterEvents fc)
      ∧ (Open fc e s).1.«open» = false) := by
  refine ⟨?_, ?_, ?_, ?_⟩
  · intro hre hen
    unfold Open Enable
    simp [hre, hen, ho]
  · intro hEn hdef
    cases hre : s.really_enabled
    · cases hen : e.enable_ok
      · exfalso
        rcases hEn with h | h
        · rw [hre] at h; exact Bool.noConfusion h
        · rw [hen] at h; exact Bool.noConfusion h
      · constructor
        · unfold Open Enable
          simp [hre, hen, hdef]
        · unfold Open Enable
          simp [hre, hen, hdef, ho]
    · constructor
      · unfold Open Enable
        simp [hre, hdef]
      · unfold Open Enable
        simp [hre, hdef, ho]
  · intro hEn hdef hpo
    cases hre : s.really_enabled
    · cases hen : e.enable_ok
      · exfalso
        rcases hEn with h | h
        · rw [hre] at h; exact Bool.noConfusion h
        · rw [hen] at h; exact Bool.noConfusion h
      · constructor
        · unfold Open Enable
          simp [hre, hen, hdef, hpo]
        · unfold Open Enable
          simp [hre, hen, hdef, hpo, ho]
    · constructor
      · unfold Open Enable
        simp [hre, hdef, hpo]
      · unfold Open Enable
        simp [hre, hdef, hpo, ho]
  · intro hEn hdef hpo hcv
    cases hre : s.really_enabled
    · cases hen : e.enable_ok
      · exfalso
        rcases hEn with h | h
        · rw [hre] at h; exact Bool.noConfusion h
        · rw [hen] at h; exact Bool.noConfusion h
      · constructor
        · unfold Open Enable
          simp [hre, hen, hdef, hpo, hcv]
        · unfold Open Enable
          simp [hre, hen, hdef, hpo, hcv, ho]
    · constructor
      · unfold Open Enable
        simp [hre, hdef, hpo, hcv]
      · unfold Open Enable
        simp [hre, hdef, hpo, hcv, ho]

theorem C4_witness :
    Open fc0 ⟨true, true, true, AudioFormat.Undefined, true, true⟩ s0 =
      ({ s0 with
          really_enabled := true
          fail_timer := true },
       (if s0.really_enabled then [] else [Ev.plugin_enable]) ++
         (OpenFilter fc0 ⟨true, true, true, AudioFormat.Undefined, true, true⟩).2)
    ∧ (Open fc0 ⟨true, true, true, AudioFormat.Undefined, true, true⟩ s0).1.«open»
        = false :=
  (C4_open_failure fc0 ⟨true, true, true, AudioFormat.Undefined, true, true⟩ s0
    rfl).2.1 (Or.inr rfl) (by decide)

/-- The open-state invariant of the worker: an open output has an enabled
device, a pipe and a valid input format. -/
def OpenInv (s : AOState) : Prop :=
  s.«open» = true →
    s.really_enabled = true ∧ s.pipe ≠ none ∧ s.in_audio_format.IsValid = true

instance (s : AOState) : Decidable (OpenInv s) := by
  unfold OpenInv
  infer_instance

theorem Enable_cases (e : OpenEnv) (s : AOState) :
    (Enable e s).1 = s ∨ (Enable e s).1 = { s with really_enabled := true } := by
  unfold Enable
  by_cases h1 : s.really_enabled <;> by_cases h2 : e.enable_ok <;> simp [h1, h2]

theorem Close_OpenInv (fc : FilterCtx) (drain : Bool) (s : AOState) :
    OpenInv (Close fc drain s).1 := by
  intro h
  simp [Close] at h

theorem Disable_open (fc : FilterCtx) (s : AOState) :
    (Disable fc s).1.«open» = false := by
  cases ho : s.«open» <;> cases hre : s.really_enabled <;>
    simp [Disable, ho, hre, Close]

theorem Disable_OpenInv (fc : FilterCtx) (s : AOState) :
    OpenInv (Disable fc s).1 := by
  intro h
  rw [Disable_open] at h
  exact absurd h (by decide)

theorem Open_OpenInv (fc : FilterCtx) (e : OpenEnv) (s : AOState)
    (ho : s.«open» = false) (hp : s.pipe ≠ none)
    (hv : s.in_audio_format.IsValid = true) :
    OpenInv (Open fc e s).1 := by
  unfold Open Enable
  cases hre : s.really_enabled <;> cases hen : e.enable_ok <;>
    cases hdef : (OpenFilter fc e).1.IsDefined <;>
    cases hpo : e.plugin_open_ok <;> cases hcv : e.convert_ok <;>
    simp [hre, hen, hdef, hpo, hcv, OpenInv, ho, hp, hv]

theorem ReopenFilter_OpenInv (fc : FilterCtx) (e : OpenEnv) (s : AOState)
    (h : OpenInv s) : OpenInv (ReopenFilter fc e s).1 := by
  unfold ReopenFilter
  cases hdef : (OpenFilter fc e).1.IsDefined <;> cases hcv : e.convert_ok <;>
    simp only [hdef, hcv, Bool.not_true, Bool.not_false, Bool.false_eq_true,
      eq_self_iff_true, if_true, if_false, ite_true, ite_false] <;>
    first
      | exact h
      | (intro h2; simp at h2)

theorem Reopen_OpenInv (fc : FilterCtx) (e : OpenEnv) (s : AOState)
    (h : OpenInv s)
    (hc : s.«open» = false → s.pipe ≠ none ∧ s.in_audio_format.IsValid = true) :
    OpenInv (Reopen fc e s).1 := by
  unfold Reopen
  cases hcfg : s.config_audio_format.IsFullyDefined <;> cases ho : s.«open» <;>
    simp only [hcfg, ho, Bool.not_true, Bool.not_false, Bool.false_eq_true,
      Bool.true_eq_false, eq_self_iff_true, if_true, if_false, ite_true,
      ite_false, Close]
  · -- no configured format, closed: plain Open on the masked format
    exact Open_OpenInv fc e _ rfl (hc ho).1 (hc ho).2
  · -- no configured format, open: close with drain, restore pipe, reopen
    exact Open_OpenInv fc e _ rfl (h ho).2.1 (h ho).2.2
  · -- configured format, closed: plain Open
    exact Open_OpenInv fc e s ho (hc ho).1 (hc ho).2
  · -- configured format, still open: only the filters are reconfigured
    exact ReopenFilter_OpenInv fc e s h

theorem PlayChunkLoop_OpenInv (fc : FilterCtx) (iters : List PlayIter) :
    ∀ (s : AOState) (size : Nat), OpenInv s →
      OpenInv (PlayChunkLoop fc iters s size).1 := by
  induction iters with
  | nil => intro s size h; exact h
  | cons it rest ih =>
    intro s size h
    unfold PlayChunkLoop
    by_cases hg : size > 0 ∧ s.command = ao_command.NONE
    · rw [if_pos hg]
      cases hwd : it.wd_ok <;>
        by_cases hnb : it.nbytes = 0 <;>
        simp only [hwd, hnb, Bool.not_true, Bool.not_false, Bool.false_eq_true,
          eq_self_iff_true, if_true, if_false, ite_true, ite_false] <;>
        first
          | exact h
          | exact ih _ _ h
          | (intro h2; simp [Close] at h2)
    · rw [if_neg hg]
      exact h

theorem PlayChunk_OpenInv (fc : FilterCtx) (ce : ChunkEnv) (s : AOState)
    (chunk : music_chunk) (h : OpenInv s) : OpenInv (PlayChunk fc ce s chunk).1 := by
  unfold PlayChunk
  cases hd : (ao_filter_chunk fc s.in_audio_format.format chunk
      s.replay_gain_serial s.other_replay_gain_serial).data <;>
    cases ht : (s.tags && chunk.base.tag) <;>
    simp only [ht, hd, Bool.false_eq_true, eq_self_iff_true, if_true, if_false,
      ite_true, ite_false] <;>
    first
      | exact PlayChunkLoop_OpenInv _ _ _ _ h
      | (intro h2; simp [Close] at h2)

theorem PlayLoop_OpenInv (fc : FilterCtx) (chunks : List (music_chunk × ChunkEnv)) :
    ∀ s : AOState, OpenInv s → OpenInv (PlayLoop fc chunks s).1 := by
  induction chunks with
  | nil => intro s h; exact h
  | cons p rest ih =>
    intro s h
    rcases p with ⟨chunk, ce⟩
    unfold PlayLoop
    by_cases hc : s.command = ao_command.NONE
    · rw [if_pos hc]
      cases hok : (PlayChunk fc ce { s with current_chunk := some chunk } chunk).2.1 <;>
        simp only [hok, Bool.not_false, Bool.not_true, Bool.false_eq_true, if_true,
          if_false, ite_true, ite_false] <;>
        first
          | exact PlayChunk_OpenInv _ _ _ _ h
          | exact ih _ (PlayChunk_OpenInv _ _ _ _ h)
    · rw [if_neg hc]
      exact h

theorem Play_OpenInv (fc : FilterCtx) (pe : PlayEnv) (s : AOState)
    (h : OpenInv s) : OpenInv (Play fc pe s).1 := by
  unfold Play
  rcases hc : pe.chunks with _ | ⟨c, cs⟩
  · exact h
  · exact PlayLoop_OpenInv fc (c :: cs) _ h

/-- C1: the invariant `open implies really_enabled, a non-null pipe and a
valid input format` is preserved by every operation of the worker: `Open`
(under its asserted preconditions), `Close`, `Reopen` (given the invariant
and the `Open` preconditions when it reopens from closed), `Disable`, and the
`Play` step. -/
theorem C1_open_invariant :
    (∀ (fc : FilterCtx) (e : OpenEnv) (s : AOState),
      s.«open» = false → s.pipe ≠ none → s.in_audio_format.IsValid = true →
      OpenInv (Open fc e s).1)
    ∧ (∀ (fc : FilterCtx) (drain : Bool) (s : AOState), OpenInv (Close fc drain s).1)
    ∧ (∀ (fc : FilterCtx) (e : OpenEnv) (s : AOState), OpenInv s →
      (s.«open» = false → s.pipe ≠ none ∧ s.in_audio_format.IsValid = true) →
      OpenInv (Reopen fc e s).1)
    ∧ (∀ (fc : FilterCtx) (s : AOState), OpenInv (Disable fc s).1)
    ∧ (∀ (fc : FilterCtx) (pe : PlayEnv) (s : AOState), OpenInv s →
      OpenInv (Play fc pe s).1) :=
  ⟨Open_OpenInv, Close_OpenInv, Reopen_OpenInv, Disable_OpenInv, Play_OpenInv⟩

theorem C1_witness : OpenInv (Open fc0 oenv0 s0).1 :=
  C1_open_invariant.1 fc0 oenv0 s0 rfl (by decide) rfl

theorem plugin_play_not_mem_CloseEvents (fc : FilterCtx) (drain : Bool) (n m : Nat) :
    Ev.plugin_play n m ∉ CloseEvents fc drain := by
  unfold CloseEvents CloseFilterEvents
  cases drain <;>
    by_cases h1 : fc.replay_gain_filter.isSome <;>
    by_cases h2 : fc.other_replay_gain_filter.isSome <;>
    simp [h1, h2]

theorem PlayChunkLoop_play_zero (fc : FilterCtx) (iters : List PlayIter) :
    ∀ (s : AOState) (size : Nat),
      (∃ n, Ev.plugin_play n 0 ∈ (PlayChunkLoop fc iters s size).2.2) →
      (PlayChunkLoop fc iters s size).2.1 = false
      ∧ (PlayChunkLoop fc iters s size).1.«open» = false
      ∧ (PlayChunkLoop fc iters s size).1.fail_timer = true
      ∧ ∃ pre n, (PlayChunkLoop fc iters s size).2.2
          = pre ++ [Ev.plugin_play n 0] ++ CloseEvents fc false := by
  induction iters with
  | nil =>
    intro s size h
    exfalso
    rcases h with ⟨n, hn⟩
    simp [PlayChunkLoop] at hn
  | cons it rest ih =>
    intro s size h
    unfold PlayChunkLoop at h ⊢
    by_cases hg : size > 0 ∧ s.command = ao_command.NONE
    · rw [if_pos hg] at h ⊢
      cases hwd : it.wd_ok <;>
        simp only [hwd, Bool.not_true, Bool.not_false, Bool.false_eq_true,
          eq_self_iff_true, if_true, if_false, ite_true, ite_false] at h ⊢
      · -- WaitForDelay interrupted: the loop exits with an empty trace
        rcases h with ⟨n, hn⟩
        simp at hn
      · by_cases hnb : it.nbytes = 0 <;>
          simp only [hnb, eq_self_iff_true, if_true, if_false, ite_true,
            ite_false] at h ⊢
        · exact ⟨trivial, by simp [Close], trivial, ⟨[], size, by simp [Close]⟩⟩
        · rcases h with ⟨n, hn⟩
          rcases List.mem_cons.mp hn with heq | hmem
          · exfalso
            have := (Ev.plugin_play.injEq _ _ _ _).mp heq
            exact hnb this.2.symm
          · obtain ⟨hok, hopen, hft, pre, m, hshape⟩ := ih _ _ ⟨n, hmem⟩
            exact ⟨hok, hopen, hft,
              ⟨Ev.plugin_play size it.nbytes :: pre, m, by simp [hshape]⟩⟩
    · rw [if_neg hg] at h ⊢
      rcases h with ⟨n, hn⟩
      simp at hn

theorem plugin_play_not_mem_CloseFilterEvents (fc : FilterCtx) (n m : Nat) :
    Ev.plugin_play n m ∉ CloseFilterEvents fc := by
  unfold CloseFilterEvents
  by_cases h1 : fc.replay_gain_filter.isSome <;>
    by_cases h2 : fc.other_replay_gain_filter.isSome <;> simp [h1, h2]

theorem PlayChunk_play_zero (fc : FilterCtx) (ce : ChunkEnv) (s : AOState)
    (chunk : music_chunk)
    (h : ∃ n, Ev.plugin_play n 0 ∈ (PlayChunk fc ce s chunk).2.2) :
    (PlayChunk fc ce s chunk).2.1 = false
    ∧ (PlayChunk fc ce s chunk).1.«open» = false
    ∧ (PlayChunk fc ce s chunk).1.fail_timer = true
    ∧ ∃ pre n, (PlayChunk fc ce s chunk).2.2
        = pre ++ [Ev.plugin_play n 0] ++ CloseEvents fc false := by
  unfold PlayChunk at h ⊢
  cases hd : (ao_filter_chunk fc s.in_audio_format.format chunk
      s.replay_gain_serial s.other_replay_gain_serial).data <;>
    cases ht : (s.tags && chunk.base.tag) <;>
    simp only [ht, hd, Bool.false_eq_true, eq_self_iff_true, if_true, if_false,
      ite_true, ite_false] at h ⊢ <;>
    rcases h with ⟨n, hn⟩ <;>
    [skip; skip; skip; skip]
  · -- filter failure, no tag: the trace has no play event at all
    exfalso
    have h3 := plugin_play_not_mem_CloseFilterEvents fc n 0
    simp [Close, CloseEvents, h3] at hn
  · -- filter failure, tag sent
    exfalso
    have h3 := plugin_play_not_mem_CloseFilterEvents fc n 0
    simp [Close, CloseEvents, h3] at hn
  · -- playing, no tag
    simp at hn
    obtain ⟨hok, hopen, hft, pre, m, hshape⟩ :=
      PlayChunkLoop_play_zero fc ce.iters _ _ ⟨n, hn⟩
    refine ⟨hok, hopen, hft,
      ((ao_filter_chunk fc s.in_audio_format.format chunk s.replay_gain_serial
        s.other_replay_gain_serial).set_info.map Ev.set_info) ++ pre, m, ?_⟩
    simp [hshape]
  · -- playing, tag sent
    simp at hn
    obtain ⟨hok, hopen, hft, pre, m, hshape⟩ :=
      PlayChunkLoop_play_zero fc ce.iters _ _ ⟨n, hn⟩
    refine ⟨hok, hopen, hft,
      Ev.plugin_send_tag ::
        (((ao_filter_chunk fc s.in_audio_format.format chunk s.replay_gain_serial
          s.other_replay_gain_serial).set_info.map Ev.set_info) ++ pre), m, ?_⟩
    simp [hshape]

theorem TaskDispatch_terminated (fc : FilterCtx) (de : DispatchEnv) (s : AOState) :
    (TaskDispatch fc de s).2.1 = Control.Terminated ↔
      s.command = ao_command.KILL := by
  cases hc : s.command <;> cases ho : s.«open» <;>
    simp [TaskDispatch, hc, ho, CommandFinished]

theorem TaskStep_terminated (fc : FilterCtx) (se : StepEnv) (s : AOState) :
    (TaskStep fc se s).2.1 = Control.Terminated ↔ s.command = ao_command.KILL := by
  rw [← TaskDispatch_terminated fc se.de s]
  unfold TaskStep
  rcases hd : TaskDispatch fc se.de s with ⟨s1, ctl, ev⟩
  cases ctl
  · -- Idle: the play attempt and the idle wait never terminate the loop
    by_cases hoa : (s1.«open» && s1.allow_play) = true <;>
      cases hp2 : (Play fc se.pe s1).2.1 <;>
      simp [hd, hoa, hp2]
  · simp [hd]
  · simp [hd]

/-- C2: whenever `ao_plugin_play` returns zero during a play step, the chunk
is abandoned: `PlayChunk` returns `false`, the output is closed abruptly (the
trace ends with the failing play call followed by the cancel-close-filter
teardown of `Close(false)`), the fail timer is set; and the task loop never
terminates on such an error: a `TaskStep` yields `Terminated` exactly for the
`KILL` command. -/
theorem C2_play_zero_failure :
    (∀ (fc : FilterCtx) (ce : ChunkEnv) (s : AOState) (chunk : music_chunk),
      (∃ n, Ev.plugin_play n 0 ∈ (PlayChunk fc ce s chunk).2.2) →
      (PlayChunk fc ce s chunk).2.1 = false
      ∧ (PlayChunk fc ce s chunk).1.«open» = false
      ∧ (PlayChunk fc ce s chunk).1.fail_timer = true
      ∧ ∃ pre n, (PlayChunk fc ce s chunk).2.2
          = pre ++ [Ev.plugin_play n 0] ++ CloseEvents fc false)
    ∧ (∀ (fc : FilterCtx) (se : StepEnv) (s : AOState),
      (TaskStep fc se s).2.1 = Control.Terminated ↔
        s.command = ao_command.KILL) :=
  ⟨PlayChunk_play_zero, TaskStep_terminated⟩

/-- A sample open playing state, for concrete instances. -/
def sopen : AOState :=
  { s0 with «open» := true, really_enabled := true, allow_play := true }

/-- A sample plain chunk, for concrete instances. -/
def chunk0 : music_chunk := ⟨⟨[1, 2], false, 0, 0⟩, none, 0⟩

theorem C2_witness :
    (PlayChunk fc0 ⟨ao_command.NONE, [⟨true, ao_command.NONE, 0, ao_command.NONE⟩]⟩
        sopen chunk0).2.1 = false
    ∧ (PlayChunk fc0 ⟨ao_command.NONE, [⟨true, ao_command.NONE, 0, ao_command.NONE⟩]⟩
        sopen chunk0).1.«open» = false
    ∧ (PlayChunk fc0 ⟨ao_command.NONE, [⟨true, ao_command.NONE, 0, ao_command.NONE⟩]⟩
        sopen chunk0).1.fail_timer = true
    ∧ ∃ pre n, (PlayChunk fc0
        ⟨ao_command.NONE, [⟨true, ao_command.NONE, 0, ao_command.NONE⟩]⟩
        sopen chunk0).2.2 = pre ++ [Ev.plugin_play n 0] ++ CloseEvents fc0 false :=
  C2_play_zero_failure.1 fc0
    ⟨ao_command.NONE, [⟨true, ao_command.NONE, 0, ao_command.NONE⟩]⟩
    sopen chunk0 ⟨2, by decide⟩

theorem no_play_OpenFilter (fc : FilterCtx) (e : OpenEnv) (n m : Nat) :
    Ev.plugin_play n m ∉ (OpenFilter fc e).2 := by
  unfold OpenFilter
  by_cases h1 : fc.replay_gain_filter.isSome <;>
    by_cases h2 : fc.other_replay_gain_filter.isSome <;>
    by_cases h3 : e.rg_open_ok <;> by_cases h4 : e.other_rg_open_ok <;>
    by_cases h5 : e.filter_open_format.IsDefined <;>
    simp [h1, h2, h3, h4, h5]

theorem no_play_Enable (e : OpenEnv) (s : AOState) (n m : Nat) :
    Ev.plugin_play n m ∉ (Enable e s).2.2 := by
  unfold Enable
  cases hre : s.really_enabled <;> cases hen : e.enable_ok <;> simp [hre, hen]

theorem no_play_Open (fc : FilterCtx) (e : OpenEnv) (s : AOState) (n m : Nat) :
    Ev.plugin_play n m ∉ (Open fc e s).2 := by
  unfold Open Enable
  have h1 := no_play_OpenFilter fc e n m
  have h2 := plugin_play_not_mem_CloseFilterEvents fc n m
  cases hre : s.really_enabled <;> cases hen : e.enable_ok <;>
    cases hdef : (OpenFilter fc e).1.IsDefined <;>
    cases hpo : e.plugin_open_ok <;> cases hcv : e.convert_ok <;>
    simp [hre, hen, hdef, hpo, hcv, h1, h2]

theorem no_play_ReopenFilter (fc : FilterCtx) (e : OpenEnv) (s : AOState) (n m : Nat) :
    Ev.plugin_play n m ∉ (ReopenFilter fc e s).2 := by
  unfold ReopenFilter
  have h1 := no_play_OpenFilter fc e n m
  have h2 := plugin_play_not_mem_CloseFilterEvents fc n m
  cases hdef : (OpenFilter fc e).1.IsDefined <;> cases hcv : e.convert_ok <;>
    simp [hdef, hcv, h1, h2]

theorem no_play_Reopen (fc : FilterCtx) (e : OpenEnv) (s : AOState) (n m : Nat) :
    Ev.plugin_play n m ∉ (Reopen fc e s).2 := by
  unfold Reopen
  cases hcfg : s.config_audio_format.IsFullyDefined <;> cases ho : s.«open» <;>
    simp [hcfg, ho, Close, plugin_play_not_mem_CloseEvents, no_play_Open,
      no_play_ReopenFilter]

theorem no_play_Disable (fc : FilterCtx) (s : AOState) (n m : Nat) :
    Ev.plugin_play n m ∉ (Disable fc s).2 := by
  unfold Disable
  cases ho : s.«open» <;> cases hre : s.really_enabled <;>
    simp [ho, hre, Close, plugin_play_not_mem_CloseEvents]

theorem no_play_PauseLoop (fc : FilterCtx) (iters : List PauseIter) :
    ∀ (s : AOState) (n m : Nat), Ev.plugin_play n m ∉ (PauseLoop fc iters s).2 := by
  induction iters with
  | nil => intro s n m; simp [PauseLoop]
  | cons it rest ih =>
    intro s n m
    unfold PauseLoop
    cases hwd : it.wd_ok <;> cases hpo : it.pause_ok <;>
      by_cases hcmd : it.cmd_after_pause = ao_command.NONE <;>
      simp [hwd, hpo, hcmd, Close, plugin_play_not_mem_CloseEvents, ih]

theorem no_play_Pause (fc : FilterCtx) (iters : List PauseIter)
    (arrival : ao_command) (s : AOState) (n m : Nat) :
    Ev.plugin_play n m ∉ (Pause fc iters arrival s).2 := by
  unfold Pause CommandFinished
  simp [no_play_PauseLoop]

theorem TaskDispatch_no_play (fc : FilterCtx) (de : DispatchEnv) (s : AOState)
    (n m : Nat) : Ev.plugin_play n m ∉ (TaskDispatch fc de s).2.2 := by
  unfold TaskDispatch
  cases hc : s.command <;> cases ho : s.«open» <;>
    simp [hc, ho, CommandFinished, Close, plugin_play_not_mem_CloseEvents,
      no_play_Enable, no_play_Disable, no_play_Open, no_play_Reopen, no_play_Pause]

theorem PauseLoop_command_none (fc : FilterCtx) (iters : List PauseIter)
    (hpi : ∀ it ∈ iters, it.cmd_after_wait = ao_command.NONE
        ∧ it.cmd_after_pause = ao_command.NONE) :
    ∀ s : AOState, s.command = ao_command.NONE →
      (PauseLoop fc iters s).1.command = ao_command.NONE := by
  induction iters with
  | nil => intro s h; exact h
  | cons it rest ih =>
    intro s h
    obtain ⟨hw, hp⟩ := hpi it (List.mem_cons_self it rest)
    have hrest : ∀ x ∈ rest, x.cmd_after_wait = ao_command.NONE
        ∧ x.cmd_after_pause = ao_command.NONE :=
      fun x hx => hpi x (List.mem_cons_of_mem it hx)
    unfold PauseLoop
    cases hwd : it.wd_ok <;> cases hpo : it.pause_ok <;>
      simp only [hwd, hpo, hw, hp, Bool.not_true, Bool.not_false,
        Bool.false_eq_true, eq_self_iff_true, if_true, if_false, ite_true,
        ite_false, Close] <;>
      first
        | exact hw
        | exact hp
        | rfl
        | exact ih hrest _ hp
        | exact ih hrest _ rfl

theorem TaskDispatch_ack_none (fc : FilterCtx) (de : DispatchEnv) (s : AOState)
    (hcmd : s.command ≠ ao_command.NONE)
    (harr : de.cmd_after_finish = ao_command.NONE)
    (hpi : ∀ it ∈ de.pause_iters, it.cmd_after_wait = ao_command.NONE
        ∧ it.cmd_after_pause = ao_command.NONE) :
    (TaskDispatch fc de s).1.command = ao_command.NONE := by
  cases hc : s.command
  case NONE => exact absurd hc hcmd
  case PAUSE =>
    cases ho : s.«open»
    · simp [TaskDispatch, hc, ho, CommandFinished, harr]
    · simp only [TaskDispatch, hc, ho, Bool.not_true, Bool.false_eq_true,
        if_false, ite_false, Pause, CommandFinished]
      exact PauseLoop_command_none fc de.pause_iters hpi _ harr
  all_goals
    cases ho : s.«open» <;>
      simp [TaskDispatch, hc, ho, CommandFinished, harr]

theorem TaskStep_posted_command (fc : FilterCtx) (se : StepEnv) (s : AOState)
    (hidle : (TaskDispatch fc se.de s).2.1 = Control.Idle)
    (hcmd : (TaskDispatch fc se.de s).1.command ≠ ao_command.NONE) :
    (TaskStep fc se s).1.command = (TaskDispatch fc se.de s).1.command
    ∧ (TaskStep fc se s).1.current_chunk = (TaskDispatch fc se.de s).1.current_chunk
    ∧ ∀ n m, Ev.plugin_play n m ∉ (TaskStep fc se s).2.2 := by
  have hnp : ∀ n m, Ev.plugin_play n m ∉ (TaskDispatch fc se.de s).2.2 :=
    TaskDispatch_no_play fc se.de s
  unfold TaskStep
  rcases hd : TaskDispatch fc se.de s with ⟨s1, ctl, ev⟩
  rw [hd] at hidle hcmd hnp
  simp only at hidle hcmd hnp
  subst hidle
  by_cases hoa : (s1.«open» && s1.allow_play) = true
  · rcases hpc : se.pe.chunks with _ | ⟨c, cs⟩
    · simp [hoa, Play, hpc, IdleWait, hcmd, hnp]
    · simp [hoa, Play, hpc, PlayLoop, IdleWait, hcmd, hnp]
  · simp [hoa, IdleWait, hcmd, hnp]

theorem TaskStep_continue_redispatch (fc : FilterCtx) (se : StepEnv) (s : AOState)
    (hcont : (TaskDispatch fc se.de s).2.1 = Control.Continue) :
    TaskStep fc se s = ((TaskDispatch fc se.de s).1, Control.Continue,
      (TaskDispatch fc se.de s).2.2) := by
  unfold TaskStep
  rcases hd : TaskDispatch fc se.de s with ⟨s1, ctl, ev⟩
  rw [hd] at hcont
  simp only at hcont
  subst hcont
  rfl

/-- C5: after the worker acknowledges any command (and no new command arrives
during the acknowledge signals), the command slot holds `NONE` before any
non-command work; and a command that is posted during the acknowledgement is
processed before the worker may execute another play step: the step leaves
the pending command and `current_chunk` untouched and makes no
`ao_plugin_play` call, and a continue-dispatch re-dispatches immediately. -/
theorem C5_command_before_play :
    (∀ (fc : FilterCtx) (de : DispatchEnv) (s : AOState),
      s.command ≠ ao_command.NONE →
      de.cmd_after_finish = ao_command.NONE →
      (∀ it ∈ de.pause_iters, it.cmd_after_wait = ao_command.NONE
        ∧ it.cmd_after_pause = ao_command.NONE) →
      (TaskDispatch fc de s).1.command = ao_command.NONE)
    ∧ (∀ (fc : FilterCtx) (se : StepEnv) (s : AOState),
      (TaskDispatch fc se.de s).2.1 = Control.Idle →
      (TaskDispatch fc se.de s).1.command ≠ ao_command.NONE →
      (TaskStep fc se s).1.command = (TaskDispatch fc se.de s).1.command
      ∧ (TaskStep fc se s).1.current_chunk = (TaskDispatch fc se.de s).1.current_chunk
      ∧ ∀ n m, Ev.plugin_play n m ∉ (TaskStep fc se s).2.2)
    ∧ (∀ (fc : FilterCtx) (se : StepEnv) (s : AOState),
      (TaskDispatch fc se.de s).2.1 = Control.Continue →
      TaskStep fc se s = ((TaskDispatch fc se.de s).1, Control.Continue,
        (TaskDispatch fc se.de s).2.2)) :=
  ⟨TaskDispatch_ack_none, TaskStep_posted_command, TaskStep_continue_redispatch⟩

theorem C5_witness :
    (TaskDispatch fc0 de0 { s0 with command := ao_command.OPEN }).1.command =
      ao_command.NONE :=
  C5_command_before_play.1 fc0 de0 { s0 with command := ao_command.OPEN }
    (by decide) rfl (by simp [de0])

/-- The fail-timer invariant: an open output has no reopen cooldown pending. -/
def FailTimerInv (s : AOState) : Prop := s.«open» = true → s.fail_timer = false

instance (s : AOState) : Decidable (FailTimerInv s) := by
  unfold FailTimerInv
  infer_instance

theorem Enable_FailTimerInv (e : OpenEnv) (s : AOState) (h : FailTimerInv s) :
    FailTimerInv (Enable e s).1 := by
  rcases Enable_cases e s with hE | hE <;> rw [hE] <;> exact h

theorem Disable_FailTimerInv (fc : FilterCtx) (s : AOState) :
    FailTimerInv (Disable fc s).1 := by
  intro h2
  rw [Disable_open] at h2
  exact absurd h2 (by decide)

theorem Open_FailTimerInv (fc : FilterCtx) (e : OpenEnv) (s : AOState)
    (ho : s.«open» = false) : FailTimerInv (Open fc e s).1 := by
  unfold Open Enable
  cases hre : s.really_enabled <;> cases hen : e.enable_ok <;>
    cases hdef : (OpenFilter fc e).1.IsDefined <;>
    cases hpo : e.plugin_open_ok <;> cases hcv : e.convert_ok <;>
    simp [hre, hen, hdef, hpo, hcv, FailTimerInv, ho]

theorem ReopenFilter_FailTimerInv (fc : FilterCtx) (e : OpenEnv) (s : AOState)
    (h : FailTimerInv s) : FailTimerInv (ReopenFilter fc e s).1 := by
  unfold ReopenFilter
  cases hdef : (OpenFilter fc e).1.IsDefined <;> cases hcv : e.convert_ok <;>
    simp only [hdef, hcv, Bool.not_true, Bool.not_false, Bool.false_eq_true,
      eq_self_iff_true, if_true, if_false, ite_true, ite_false] <;>
    first
      | exact h
      | (intro h2; simp at h2)

theorem Reopen_FailTimerInv (fc : FilterCtx) (e : OpenEnv) (s : AOState)
    (h : FailTimerInv s) : FailTimerInv (Reopen fc e s).1 := by
  unfold Reopen
  cases hcfg : s.config_audio_format.IsFullyDefined <;> cases ho : s.«open» <;>
    simp only [hcfg, ho, Bool.not_true, Bool.not_false, Bool.false_eq_true,
      Bool.true_eq_false, eq_self_iff_true, if_true, if_false, ite_true,
      ite_false, Close]
  · exact Open_FailTimerInv fc e _ rfl
  · exact Open_FailTimerInv fc e _ rfl
  · exact Open_FailTimerInv fc e s ho
  · exact ReopenFilter_FailTimerInv fc e s h

theorem PlayChunkLoop_FailTimerInv (fc : FilterCtx) (iters : List PlayIter) :
    ∀ (s : AOState) (size : Nat), FailTimerInv s →
      FailTimerInv (PlayChunkLoop fc iters s size).1 := by
  induction iters with
  | nil => intro s size h; exact h
  | cons it rest ih =>
    intro s size h
    unfold PlayChunkLoop
    by_cases hg : size > 0 ∧ s.command = ao_command.NONE
    · rw [if_pos hg]
      cases hwd : it.wd_ok <;>
        by_cases hnb : it.nbytes = 0 <;>
        simp only [hwd, hnb, Bool.not_true, Bool.not_false, Bool.false_eq_true,
          eq_self_iff_true, if_true, if_false, ite_true, ite_false] <;>
        first
          | exact h
          | exact ih _ _ h
          | (intro h2; simp [Close] at h2)
    · rw [if_neg hg]
      exact h

theorem PlayChunk_FailTimerInv (fc : FilterCtx) (ce : ChunkEnv) (s : AOState)
    (chunk : music_chunk) (h : FailTimerInv s) :
    FailTimerInv (PlayChunk fc ce s chunk).1 := by
  unfold PlayChunk
  cases hd : (ao_filter_chunk fc s.in_audio_format.format chunk
      s.replay_gain_serial s.other_replay_gain_serial).data <;>
    cases ht : (s.tags && chunk.base.tag) <;>
    simp only [ht, hd, Bool.false_eq_true, eq_self_iff_true, if_true, if_false,
      ite_true, ite_false] <;>
    first
      | exact PlayChunkLoop_FailTimerInv _ _ _ _ h
      | (intro h2; simp [Close] at h2)

theorem PlayLoop_FailTimerInv (fc : FilterCtx) (chunks : List (music_chunk × ChunkEnv)) :
    ∀ s : AOState, FailTimerInv s → FailTimerInv (PlayLoop fc chunks s).1 := by
  induction chunks with
  | nil => intro s h; exact h
  | cons p rest ih =>
    intro s h
    rcases p with ⟨chunk, ce⟩
    unfold PlayLoop
    by_cases hc : s.command = ao_command.NONE
    · rw [if_pos hc]
      cases hok : (PlayChunk fc ce { s with current_chunk := some chunk } chunk).2.1 <;>
        simp only [hok, Bool.not_false, Bool.not_true, Bool.false_eq_true, if_true,
          if_false, ite_true, ite_false] <;>
        first
          | exact PlayChunk_FailTimerInv _ _ _ _ h
          | exact ih _ (PlayChunk_FailTimerInv _ _ _ _ h)
    · rw [if_neg hc]
      exact h

theorem Play_FailTimerInv (fc : FilterCtx) (pe : PlayEnv) (s : AOState)
    (h : FailTimerInv s) : FailTimerInv (Play fc pe s).1 := by
  unfold Play
  rcases hc : pe.chunks with _ | ⟨c, cs⟩
  · exact h
  · exact PlayLoop_FailTimerInv fc (c :: cs) _ h

theorem PauseLoop_FailTimerInv (fc : FilterCtx) (iters : List PauseIter) :
    ∀ s : AOState, FailTimerInv s → FailTimerInv (PauseLoop fc iters s).1 := by
  induction iters with
  | nil => intro s h; exact h
  | cons it rest ih =>
    intro s h
    unfold PauseLoop
    cases hwd : it.wd_ok <;> cases hpo : it.pause_ok <;>
      by_cases hcmd : it.cmd_after_pause = ao_command.NONE <;>
      simp only [hwd, hpo, hcmd, Bool.not_true, Bool.not_false, Bool.false_eq_true,
        eq_self_iff_true, if_true, if_false, ite_true, ite_false] <;>
      first
        | exact h
        | exact ih _ h
        | (intro h2; simp [Close] at h2)

theorem Pause_FailTimerInv (fc : FilterCtx) (iters : List PauseIter)
    (arrival : ao_command) (s : AOState) (h : FailTimerInv s) :
    FailTimerInv (Pause fc iters arrival s).1 :=
  PauseLoop_FailTimerInv fc iters _ h

theorem IdleWait_FailTimerInv (arrival : ao_command) (s : AOState)
    (h : FailTimerInv s) : FailTimerInv (IdleWait arrival s) := by
  unfold IdleWait
  by_cases hc : s.command = ao_command.NONE
  · rw [if_pos hc]; exact h
  · rw [if_neg hc]; exact h

theorem TaskDispatch_FailTimerInv (fc : FilterCtx) (de : DispatchEnv) (s : AOState)
    (h : FailTimerInv s) (hguard : s.command = ao_command.OPEN → s.«open» = false) :
    FailTimerInv (TaskDispatch fc de s).1 := by
  cases hc : s.command
  case NONE =>
    simp only [TaskDispatch, hc]
    exact h
  case ENABLE =>
    simp only [TaskDispatch, hc, CommandFinished]
    exact Enable_FailTimerInv de.oenv s h
  case DISABLE =>
    simp only [TaskDispatch, hc, CommandFinished]
    exact Disable_FailTimerInv fc s
  case OPEN =>
    simp only [TaskDispatch, hc, CommandFinished]
    exact Open_FailTimerInv fc de.oenv s (hguard hc)
  case REOPEN =>
    simp only [TaskDispatch, hc, CommandFinished]
    exact Reopen_FailTimerInv fc de.oenv s h
  case CLOSE =>
    simp only [TaskDispatch, hc, CommandFinished]
    intro h2
    simp [Close] at h2
  case PAUSE =>
    simp only [TaskDispatch, hc, CommandFinished]
    cases ho : s.«open» <;>
      simp only [ho, Bool.not_true, Bool.not_false, Bool.false_eq_true,
        eq_self_iff_true, if_true, if_false, ite_true, ite_false]
    · intro h2
      exact Bool.noConfusion h2
    · exact Pause_FailTimerInv fc de.pause_iters de.cmd_after_finish s h
  case DRAIN =>
    simp only [TaskDispatch, hc, CommandFinished]
    exact h
  case CANCEL =>
    simp only [TaskDispatch, hc, CommandFinished]
    exact h
  case KILL =>
    simp only [TaskDispatch, hc, CommandFinished]
    exact h

theorem TaskStep_FailTimerInv (fc : FilterCtx) (se : StepEnv) (s : AOState)
    (h : FailTimerInv s) (hguard : s.command = ao_command.OPEN → s.«open» = false) :
    FailTimerInv (TaskStep fc se s).1 := by
  have hd := TaskDispatch_FailTimerInv fc se.de s h hguard
  unfold TaskStep
  rcases hD : TaskDispatch fc se.de s with ⟨s1, ctl, ev⟩
  rw [hD] at hd
  simp only at hd
  cases ctl
  · by_cases hoa : (s1.«open» && s1.allow_play) = true
    · cases hp2 : (Play fc se.pe s1).2.1 <;>
        simp only [hoa, hp2, Bool.false_eq_true, eq_self_iff_true, if_true,
          if_false, ite_true, ite_false]
      · exact IdleWait_FailTimerInv _ _ (Play_FailTimerInv fc se.pe s1 hd)
      · exact Play_FailTimerInv fc se.pe s1 hd
    · simp only [hoa, Bool.false_eq_true, if_false, ite_false]
      exact IdleWait_FailTimerInv _ _ hd
  · exact hd
  · exact hd

/-- The reachable states of one worker: it starts with the output closed and
evolves by task-loop iterations under arbitrary environments, with the
controller respecting the asserted precondition of `OPEN` (the command is
posted only while the output is closed). -/
inductive Reachable (fc : FilterCtx) : AOState → Prop
  | init (s : AOState) : s.«open» = false → Reachable fc s
  | step (se : StepEnv) (s : AOState) : Reachable fc s →
      (s.command = ao_command.OPEN → s.«open» = false) →
      Reachable fc (TaskStep fc se s).1

/-- C9: in every reachable state of the worker, an open output has no fail
timer pending: `Open` resets the timer before setting `open` true, and every
path that updates the timer first sets or keeps `open` false. -/
theorem C9_open_no_fail_timer (fc : FilterCtx) (s : AOState)
    (h : Reachable fc s) : s.«open» = true → s.fail_timer = false := by
  induction h with
  | init s hs =>
    intro h2
    rw [hs] at h2
    exact Bool.noConfusion h2
  | step se s hr hguard ih =>
    exact TaskStep_FailTimerInv fc se s ih hguard

theorem C9_witness :
    (TaskStep fc0 ⟨⟨oenv0, [], ao_command.NONE⟩, ⟨[], ao_command.NONE⟩,
        ao_command.NONE⟩ { s0 with command := ao_command.OPEN }).1.fail_timer
      = false :=
  C9_open_no_fail_timer fc0 _
    (Reachable.step _ _ (Reachable.init _ rfl) (fun _ => rfl))
    (by decide)

end Mpd
